import Mathlib

/-!
Shallow embedding of the chat server in `src/server.js` (the dual-backend
variant: SQLite when no connection string is configured, PostgreSQL
otherwise).  The store is modelled as an explicit in-memory state, the
backend protocol differences as pure functions on the SQL text, each HTTP
handler as a pure function from the store-call outcome (and request data)
to a JSON response, and the socket.io presence registry plus its events as
a step function over an association list mirroring a JS object.
-/

/-- Which backend the startup auto-detect selected (`dbType` in server.js). -/
inductive DbType
  | postgres
  | sqlite
deriving DecidableEq, Repr

/-- Failures a store call can reject with: a unique-constraint violation
(duplicate username) or any other failure (malformed SQL, connectivity). -/
inductive DbError
  | uniqueViolation
  | otherFailure
deriving DecidableEq, Repr

/-- A row of the `users` table: `users(id, username UNIQUE, password,
profile_pic, usb_key)`. `usb_key` is nullable (`usb_key || null`). -/
structure UserRow where
  id : Nat
  username : String
  password : String
  profile_pic : String
  usb_key : Option String
deriving DecidableEq, Repr

/-- A row of the `messages` table: `messages(id, sender, message,
timestamp DEFAULT CURRENT_TIMESTAMP)`.  The timestamp is the store clock
at insert time. -/
structure MessageRow where
  id : Nat
  sender : String
  message : String
  timestamp : Nat
deriving DecidableEq, Repr

/-- The JSON body plus HTTP status an Express handler sends: a flattening of
the possible `res.status(...).json({success?, message?, user?}or rows)`
shapes used by server.js (`res.json` alone means status 200). -/
structure Response where
  status : Nat
  success : Option Bool
  message : Option String
  user : Option UserRow
  rows : Option (List MessageRow)
deriving DecidableEq, Repr

/-- The in-memory model of the active relational store, together with the
auto-increment counters and the store clock that `CURRENT_TIMESTAMP`
defaults read from. -/
structure DbState where
  users : List UserRow
  messages : List MessageRow
  nextUserId : Nat
  nextMessageId : Nat
  clock : Nat
deriving DecidableEq, Repr

/-- The SQL text `runQuery` hands to the active backend
(server.js lines 125-138): `pool.query(sql, params)` on the postgres
branch and `sqliteDB.all(sql, params, ...)` on the sqlite branch both
receive the caller's `sql` verbatim. -/
def runQuerySql (t : DbType) (sql : String) : String :=
  match t with
  | DbType.postgres => sql
  | DbType.sqlite => sql

/-- The SQL text `runExecute` hands to the active backend
(server.js lines 140-153): both branches pass the caller's `sql`
verbatim (`pool.query(sql, params)` / `sqliteDB.run(sql, params, ...)`). -/
def runExecuteSql (t : DbType) (sql : String) : String :=
  match t with
  | DbType.postgres => sql
  | DbType.sqlite => sql

/-- Replace each `?` in the character list with `$1`, `$2`, ... counting
from `n`. -/
def translateQmarksAux : List Char → Nat → List Char
  | [], _ => []
  | c :: cs, n =>
    if c = '?' then
      ('$' :: (toString n).data) ++ translateQmarksAux cs (n + 1)
    else
      c :: translateQmarksAux cs n

/-- Rewrite sequential `?` positional placeholders to numbered `$1,$2,...`. -/
def translateQmarks (s : String) : String :=
  String.mk (translateQmarksAux s.data 1)

/-- Modelled from the spec: the placeholder syntax the Unified Data Access
Layer is required to deliver to the active backend — sequential `?` left
as-is for the embedded SQLite backend, translated to numbered `$1,$2,...`
for the networked PostgreSQL backend.  This translation is absent from
`runQuery`/`runExecute` in src/server.js; the definition exists to be
compared with `runQuerySql`/`runExecuteSql`. -/
def specRequiredSql (t : DbType) (sql : String) : String :=
  match t with
  | DbType.sqlite => sql
  | DbType.postgres => translateQmarks sql

/-- The SQL text the register handler issues (server.js line 179). -/
def registerInsertSql : String :=
  "INSERT INTO users(username,password,profile_pic,usb_key) VALUES(?,?,?,?)"

/-- `usb_key || null` in the register handler: a falsy key (absent or the
empty string) is stored as NULL. -/
def normUsbKey (k : Option String) : Option String :=
  match k with
  | some s => if s = "" then none else some s
  | none => none

/-- The store-side effect of the register INSERT: rejects with a
unique-constraint violation when the username already has a row, otherwise
appends the new row with the next auto-increment id. -/
def insertUser (st : DbState) (un pw pic : String) (k : Option String) :
    Except DbError DbState :=
  if st.users.any (fun u => u.username == un) then
    Except.error DbError.uniqueViolation
  else
    Except.ok
      { st with
        users := st.users ++ [⟨st.nextUserId, un, pw, pic, k⟩],
        nextUserId := st.nextUserId + 1 }

/-- The register handler's response as a function of the store-call outcome
(server.js lines 173-188): success on ok; the catch block answers
`res.json({success:false, message:"Username exists"})` for every error. -/
def registerRespond (outcome : Except DbError Unit) : Response :=
  match outcome with
  | Except.ok _ => ⟨200, some true, none, none, none⟩
  | Except.error _ => ⟨200, some false, some "Username exists", none, none⟩

/-- The full register handler: builds the profile_pic path from the optional
uploaded file, runs the INSERT, and responds through `registerRespond`.
On failure the store state is unchanged. -/
def register (st : DbState) (un pw : String) (k : Option String)
    (file : Option String) : Response × DbState :=
  match file with
  | some f =>
    match insertUser st un pw ("/uploads/" ++ f) (normUsbKey k) with
    | Except.ok st' => (registerRespond (Except.ok ()), st')
    | Except.error e => (registerRespond (Except.error e), st)
  | none =>
    match insertUser st un pw "" (normUsbKey k) with
    | Except.ok st' => (registerRespond (Except.ok ()), st')
    | Except.error e => (registerRespond (Except.error e), st)

/-- The rows `SELECT * FROM users WHERE username=? AND password=?` returns:
every stored row matching both fields exactly, in table order. -/
def selectLogin (st : DbState) (un pw : String) : List UserRow :=
  st.users.filter (fun u => u.username == un && u.password == pw)

/-- JS truthiness of the stored `usb_key` field: truthy exactly when it is a
non-empty string (NULL and the empty string are falsy). -/
def truthyUsb (k : Option String) : Bool :=
  match k with
  | some s => s != ""
  | none => false

/-- The login handler's response as a function of the SELECT outcome and the
caller's `usb_present` indicator (server.js lines 191-211): catch answers
`{success:false}`; `rows[0]` missing answers "Invalid login"; a truthy
`usb_key` with falsy `usb_present` answers "USB required"; otherwise the
full user row is returned. -/
def loginRespond (outcome : Except DbError (List UserRow))
    (usb_present : Bool) : Response :=
  match outcome with
  | Except.error _ => ⟨200, some false, none, none, none⟩
  | Except.ok rows =>
    match rows.head? with
    | none => ⟨200, some false, some "Invalid login", none, none⟩
    | some user =>
      if truthyUsb user.usb_key && !usb_present then
        ⟨200, some false, some "USB required", none, none⟩
      else
        ⟨200, some true, none, some user, none⟩

/-- The full login handler on a live store. -/
def login (st : DbState) (un pw : String) (usb_present : Bool) : Response :=
  loginRespond (Except.ok (selectLogin st un pw)) usb_present

/-- Insert a message row into sorted position by timestamp, before any row
with a strictly larger timestamp and after rows with smaller-or-equal. -/
def insertTS (m : MessageRow) : List MessageRow → List MessageRow
  | [] => [m]
  | b :: l =>
    if m.timestamp ≤ b.timestamp then m :: b :: l
    else b :: insertTS m l

/-- `ORDER BY timestamp ASC`: sort the stored rows by timestamp ascending
(insertion sort, stable on equal timestamps). -/
def sortByTimestamp : List MessageRow → List MessageRow
  | [] => []
  | a :: l => insertTS a (sortByTimestamp l)

/-- The rows are in nondecreasing timestamp order. -/
def tsSorted : List MessageRow → Bool
  | [] => true
  | [_] => true
  | a :: b :: l => decide (a.timestamp ≤ b.timestamp) && tsSorted (b :: l)

/-- Store invariant for the messages table: rows are timestamp-sorted and no
stored timestamp exceeds the store clock (so a later insert, stamped with
the then-current clock, lands at the end). -/
def clockOk (st : DbState) : Prop :=
  tsSorted st.messages = true ∧ ∀ m ∈ st.messages, m.timestamp ≤ st.clock

/-- The rows `SELECT * FROM messages ORDER BY timestamp ASC` returns. -/
def selectMessagesOrdered (st : DbState) : List MessageRow :=
  sortByTimestamp st.messages

/-- The fetch-history handler's response as a function of the SELECT outcome
(server.js lines 214-221): the rows on success; the catch block answers
`res.json([])` — status 200 and an empty array. -/
def getMessagesRespond (outcome : Except DbError (List MessageRow)) :
    Response :=
  match outcome with
  | Except.ok rows => ⟨200, none, none, none, some rows⟩
  | Except.error _ => ⟨200, none, none, none, some []⟩

/-- The full fetch-history handler on a live store. -/
def getMessages (st : DbState) : Response :=
  getMessagesRespond (Except.ok (selectMessagesOrdered st))

/-- The store-side effect of the message INSERT: append a row whose
timestamp defaults to the current store clock. -/
def insertMessage (st : DbState) (sender msg : String) : DbState :=
  { st with
    messages := st.messages ++ [⟨st.nextMessageId, sender, msg, st.clock⟩],
    nextMessageId := st.nextMessageId + 1 }

/-- An event emitted on the real-time channel. -/
inductive Broadcast
  | newMessage (sender msg : String) (timestamp : Nat)
  | updateOnline (users : List String)
deriving DecidableEq, Repr

/-- The post-message handler's response and emitted broadcasts as a function
of the INSERT outcome (server.js lines 224-243): on success exactly one
`io.emit('newMessage', {sender, message, timestamp: new Date()})` with a
handler-generated wall-clock timestamp, then `{success:true}`; the catch
block answers `{success:false}` and emits nothing. -/
def postMessageRespond (outcome : Except DbError Unit) (sender msg : String)
    (now : Nat) : Response × List Broadcast :=
  match outcome with
  | Except.ok _ =>
    (⟨200, some true, none, none, none⟩, [Broadcast.newMessage sender msg now])
  | Except.error _ => (⟨200, some false, none, none, none⟩, [])

/-- The full post-message handler on a live store: the store clock advances
by an arbitrary jitter `d` before the insert stamps the new row; `now` is
the wall clock the broadcast carries. -/
def postMessage (st : DbState) (sender msg : String) (d now : Nat) :
    Response × List Broadcast × DbState :=
  let st' := insertMessage { st with clock := st.clock + d } sender msg
  let rb := postMessageRespond (Except.ok ()) sender msg now
  (rb.1, rb.2, st')

/-- The presence registry `onlineUsers`: a JS object mapping username to
socket id, modelled as an association list in key insertion order. -/
abbrev Registry : Type := List (String × Nat)

/-- JS object property write `onlineUsers[k] = v`: updates in place when the
key exists, otherwise appends (JS string keys enumerate in insertion
order). -/
def objSet (m : Registry) (k : String) (v : Nat) : Registry :=
  if m.any (fun p => p.1 == k) then
    m.map (fun p => if p.1 == k then (k, v) else p)
  else
    m ++ [(k, v)]

/-- `Object.keys(onlineUsers)`. -/
def objKeys (m : Registry) : List String :=
  m.map (fun p => p.1)

/-- The `userOnline` socket handler (server.js lines 251-256): when the
registry holds fewer than 4 entries, record the username under the
announcing socket and broadcast the updated key set; otherwise do nothing
and emit nothing. -/
def userOnline (reg : Registry) (username : String) (sid : Nat) :
    Registry × List Broadcast :=
  if (objKeys reg).length < 4 then
    (objSet reg username sid,
      [Broadcast.updateOnline (objKeys (objSet reg username sid))])
  else
    (reg, [])

/-- The body of the disconnect loop (server.js lines 262-269): walk the keys
the registry held on entry; at each entry owned by the disconnecting
socket, delete it from the current registry and broadcast the then-current
key set.  `pending` is the untraversed part of the entry key list, `cur`
the live registry, `acc` the broadcasts so far in reverse. -/
def disconnectGo (sid : Nat) :
    List (String × Nat) → Registry → List Broadcast →
    Registry × List Broadcast
  | [], cur, acc => (cur, acc.reverse)
  | (u, s) :: rest, cur, acc =>
    if s = sid then
      disconnectGo sid rest (cur.filter (fun p => p.1 != u))
        (Broadcast.updateOnline
            (objKeys (cur.filter (fun p => p.1 != u))) :: acc)
    else
      disconnectGo sid rest cur acc

/-- The `disconnect` socket handler: scan every entry for the disconnecting
socket id, deleting each match and broadcasting after each deletion. -/
def disconnect (reg : Registry) (sid : Nat) : Registry × List Broadcast :=
  disconnectGo sid reg reg []

/-- Closed form of the broadcasts the disconnect loop emits: `kept` is the
already-traversed non-matching prefix, `pending` the rest; each match emits
the key set of the registry with the match (and all earlier matches)
deleted but later matches still present. -/
def discBroadcasts (sid : Nat) : Registry → Registry → List Broadcast
  | _, [] => []
  | kept, (u, s) :: rest =>
    if s = sid then
      Broadcast.updateOnline (objKeys (kept ++ rest)) ::
        discBroadcasts sid kept rest
    else
      discBroadcasts sid (kept ++ [(u, s)]) rest

/-- The presence-relevant socket events. -/
inductive PresenceEvent
  | online (username : String) (sid : Nat)
  | close (sid : Nat)
deriving DecidableEq, Repr

/-- One presence step: apply a socket event to the registry. -/
def stepReg (reg : Registry) (e : PresenceEvent) : Registry :=
  match e with
  | PresenceEvent.online u s => (userOnline reg u s).1
  | PresenceEvent.close s => (disconnect reg s).1

/-- The registry reached from the empty initial registry by a trace of
socket events. -/
def runReg (es : List PresenceEvent) : Registry :=
  es.foldl stepReg []

/-- Announce each username in `us` in turn from socket `s`. -/
def foldAnnounce (us : List String) (s : Nat) (reg : Registry) : Registry :=
  us.foldl (fun r u => (userOnline r u s).1) reg

/-! Theorems. -/

/-- C1: the claim says `runQuery`/`runExecute` deliver backend-appropriate
placeholder syntax.  In fact both pass the caller's SQL text verbatim to
either backend; on the PostgreSQL backend the register handler's `?`
placeholders are delivered untranslated, while the required syntax would be
`$1,$2,$3,$4`. -/
theorem c1_placeholder_delivery (sql : String) :
    runQuerySql DbType.sqlite sql = sql ∧
    runExecuteSql DbType.sqlite sql = sql ∧
    runQuerySql DbType.postgres registerInsertSql = registerInsertSql ∧
    runExecuteSql DbType.postgres registerInsertSql = registerInsertSql ∧
    specRequiredSql DbType.postgres registerInsertSql =
      "INSERT INTO users(username,password,profile_pic,usb_key) VALUES($1,$2,$3,$4)" ∧
    runQuerySql DbType.postgres registerInsertSql ≠
      specRequiredSql DbType.postgres registerInsertSql := by
  refine ⟨rfl, rfl, rfl, rfl, ?_, ?_⟩ <;> decide

/-- C4 counterexample: the register handler's catch block does not
distinguish failure causes — a non-constraint store failure produces the
very same duplicate-username response, not a distinct generic failure. -/
theorem c4_counterexample :
    registerRespond (Except.error DbError.otherFailure) =
      registerRespond (Except.error DbError.uniqueViolation) ∧
    (registerRespond (Except.error DbError.otherFailure)).message =
      some "Username exists" :=
  ⟨rfl, rfl⟩

/-- C4 (amended): every store failure in the register handler yields the
same duplicate-username domain response; registering the same username
twice has the first attempt succeed and the second fail with that
duplicate-username response. -/
theorem c4_register_failure_modes (st : DbState) (un pw pw2 : String)
    (k k2 file file2 : Option String) (e : DbError)
    (h : ∀ r ∈ st.users, r.username ≠ un) :
    registerRespond (Except.error e) =
      ⟨200, some false, some "Username exists", none, none⟩ ∧
    (register st un pw k file).1 = ⟨200, some true, none, none, none⟩ ∧
    (register (register st un pw k file).2 un pw2 k2 file2).1 =
      ⟨200, some false, some "Username exists", none, none⟩ := by
  have hany : st.users.any (fun u => u.username == un) = false := by
    simp only [List.any_eq_false, beq_iff_eq]
    exact h
  refine ⟨rfl, ?_, ?_⟩ <;>
    cases file <;> cases file2 <;>
      simp [register, insertUser, registerRespond, hany, List.any_append]

/-- C5: when the login SELECT matches a stored row whose second-factor key
is truthy and the caller's indicator is falsy, the handler answers
"USB required" and never "Invalid login"; when the SELECT matches nothing,
the handler answers "Invalid login" whatever the indicator, so the
second-factor check only runs after a credential match. -/
theorem c5_usb_required_after_match (st : DbState) (un pw : String)
    (u : UserRow) (st2 : DbState) (un2 pw2 : String) (up2 : Bool)
    (hfind : (selectLogin st un pw).head? = some u)
    (husb : truthyUsb u.usb_key = true)
    (hnone : (selectLogin st2 un2 pw2).head? = none) :
    login st un pw false = ⟨200, some false, some "USB required", none, none⟩ ∧
    login st un pw false ≠ ⟨200, some false, some "Invalid login", none, none⟩ ∧
    login st2 un2 pw2 up2 = ⟨200, some false, some "Invalid login", none, none⟩ := by
  refine ⟨?_, ?_, ?_⟩
  · simp [login, loginRespond, hfind, husb]
  · simp [login, loginRespond, hfind, husb]
  · simp [login, loginRespond, hnone]

/-- C5 witness at a concrete store holding the matched row with a non-empty
second-factor key, and a store where the lookup misses. -/
theorem c5_usb_required_after_match_witness :
    login ⟨[⟨1, "alice", "pw", "", some "key"⟩], [], 2, 1, 0⟩ "alice" "pw" false =
      ⟨200, some false, some "USB required", none, none⟩ ∧
    login ⟨[⟨1, "alice", "pw", "", some "key"⟩], [], 2, 1, 0⟩ "alice" "pw" false ≠
      ⟨200, some false, some "Invalid login", none, none⟩ ∧
    login ⟨[], [], 1, 1, 0⟩ "bob" "pw" true =
      ⟨200, some false, some "Invalid login", none, none⟩ :=
  c5_usb_required_after_match ⟨[⟨1, "alice", "pw", "", some "key"⟩], [], 2, 1, 0⟩
    "alice" "pw" ⟨1, "alice", "pw", "", some "key"⟩ ⟨[], [], 1, 1, 0⟩ "bob" "pw" true
    (by decide) (by decide) (by decide)

/-- C6 counterexample: the fetch-history handler's store-failure response is
byte-for-byte the successful empty-history response (`res.json([])`,
status 200), so it is not distinguishable from a success response. -/
theorem c6_counterexample :
    getMessagesRespond (Except.error DbError.otherFailure) =
      getMessagesRespond (Except.ok []) ∧
    (getMessagesRespond (Except.error DbError.otherFailure)).status = 200 :=
  ⟨rfl, rfl⟩

/-- C6 (amended): every store failure is caught at the handler boundary and
turned into a fixed-status (200) JSON response, so no store failure
escapes a handler; for register, login and post-message the failure
response differs from the success response, but the fetch-history failure
response coincides with the successful empty-history response. -/
theorem c6_store_failures_caught (e : DbError) (up : Bool) (s m : String)
    (now : Nat) (u : UserRow) :
    registerRespond (Except.error e) =
      ⟨200, some false, some "Username exists", none, none⟩ ∧
    loginRespond (Except.error e) up = ⟨200, some false, none, none, none⟩ ∧
    getMessagesRespond (Except.error e) = ⟨200, none, none, none, some []⟩ ∧
    postMessageRespond (Except.error e) s m now =
      (⟨200, some false, none, none, none⟩, []) ∧
    registerRespond (Except.error e) ≠ registerRespond (Except.ok ()) ∧
    loginRespond (Except.error e) up ≠ ⟨200, some true, none, some u, none⟩ ∧
    (postMessageRespond (Except.error e) s m now).1 ≠
      (postMessageRespond (Except.ok ()) s m now).1 ∧
    getMessagesRespond (Except.error e) = getMessagesRespond (Except.ok []) := by
  refine ⟨rfl, rfl, rfl, rfl, ?_, ?_, ?_, rfl⟩ <;>
    simp [registerRespond, loginRespond, postMessageRespond]

/-- C7: when the login SELECT matches row `u` and the second-factor check
passes, the response carries the full stored row `u` itself — a row of the
store whose password field is exactly the stored (and supplied) plaintext
password. -/
theorem c7_login_returns_full_row (st : DbState) (un pw : String) (up : Bool)
    (u : UserRow) (hfind : (selectLogin st un pw).head? = some u)
    (husb : (truthyUsb u.usb_key && !up) = false) :
    login st un pw up = ⟨200, some true, none, some u, none⟩ ∧
    u ∈ st.users ∧ u.password = pw := by
  have hmem : u ∈ selectLogin st un pw :=
    List.mem_of_mem_head? (by simp [hfind])
  have hfilter := List.mem_filter.mp hmem
  refine ⟨by simp [login, loginRespond, hfind, husb], hfilter.1, ?_⟩
  have := hfilter.2
  simp only [Bool.and_eq_true, beq_iff_eq] at this
  exact this.2

/-- C7 witness at a concrete store: correct credentials, no second factor on
the account. -/
theorem c7_login_returns_full_row_witness :
    login ⟨[⟨1, "alice", "pw", "", none⟩], [], 2, 1, 0⟩ "alice" "pw" false =
      ⟨200, some true, none, some ⟨1, "alice", "pw", "", none⟩, none⟩ ∧
    (⟨1, "alice", "pw", "", none⟩ : UserRow) ∈
      (⟨[⟨1, "alice", "pw", "", none⟩], [], 2, 1, 0⟩ : DbState).users ∧
    (⟨1, "alice", "pw", "", none⟩ : UserRow).password = "pw" :=
  c7_login_returns_full_row ⟨[⟨1, "alice", "pw", "", none⟩], [], 2, 1, 0⟩
    "alice" "pw" false ⟨1, "alice", "pw", "", none⟩ (by decide) (by decide)

/-- C9: a successful post-message emits exactly one `newMessage` broadcast,
and its sender and body are the sender and body of the row the insert
appended to the store. -/
theorem c9_broadcast_matches_persisted (st : DbState) (s m : String)
    (d now : Nat) :
    (postMessage st s m d now).2.1 = [Broadcast.newMessage s m now] ∧
    (postMessage st s m d now).2.2.messages =
      st.messages ++ [⟨st.nextMessageId, s, m, st.clock + d⟩] ∧
    (⟨st.nextMessageId, s, m, st.clock + d⟩ : MessageRow).sender = s ∧
    (⟨st.nextMessageId, s, m, st.clock + d⟩ : MessageRow).message = m :=
  ⟨rfl, rfl, rfl, rfl⟩

/-- C4 witness on a concrete empty store: registering "alice" succeeds, a
second registration of "alice" fails with the duplicate-username
response, and an arbitrary store failure maps to that same response. -/
theorem c4_register_failure_modes_witness :
    registerRespond (Except.error DbError.otherFailure) =
      ⟨200, some false, some "Username exists", none, none⟩ ∧
    (register ⟨[], [], 1, 1, 0⟩ "alice" "p1" none none).1 =
      ⟨200, some true, none, none, none⟩ ∧
    (register (register ⟨[], [], 1, 1, 0⟩ "alice" "p1" none none).2
        "alice" "p2" none none).1 =
      ⟨200, some false, some "Username exists", none, none⟩ :=
  c4_register_failure_modes ⟨[], [], 1, 1, 0⟩ "alice" "p1" "p2" none none
    none none DbError.otherFailure (by simp)

/-- The tail of a timestamp-sorted list is timestamp-sorted. -/
theorem tsSorted_tail : ∀ (a : MessageRow) (l : List MessageRow),
    tsSorted (a :: l) = true → tsSorted l = true
  | _, [], _ => rfl
  | a, b :: l, h => by
    simp only [tsSorted, Bool.and_eq_true] at h
    exact h.2

/-- Sorting a list that is already in nondecreasing timestamp order returns
it unchanged, so retrieval preserves insertion order. -/
theorem sortByTimestamp_sorted_id : ∀ l : List MessageRow,
    tsSorted l = true → sortByTimestamp l = l
  | [], _ => rfl
  | [a], _ => by simp [sortByTimestamp, insertTS]
  | a :: b :: l, h => by
    have h1 : a.timestamp ≤ b.timestamp := by
      simp only [tsSorted, Bool.and_eq_true, decide_eq_true_eq] at h
      exact h.1
    have ih := sortByTimestamp_sorted_id (b :: l) (tsSorted_tail a (b :: l) h)
    show insertTS a (sortByTimestamp (b :: l)) = a :: b :: l
    rw [ih]
    simp [insertTS, h1]

/-- Appending a row whose timestamp dominates every stored one keeps the
list timestamp-sorted. -/
theorem tsSorted_append_one : ∀ (l : List MessageRow) (m : MessageRow),
    tsSorted l = true → (∀ x ∈ l, x.timestamp ≤ m.timestamp) →
    tsSorted (l ++ [m]) = true
  | [], _, _, _ => rfl
  | [a], m, _, hle => by
    simp [tsSorted, hle a (by simp)]
  | a :: b :: l, m, h, hle => by
    simp only [tsSorted, Bool.and_eq_true, decide_eq_true_eq] at h
    have ih := tsSorted_append_one (b :: l) m h.2
      (fun x hx => hle x (List.mem_cons_of_mem a hx))
    simp only [List.cons_append, tsSorted, Bool.and_eq_true, decide_eq_true_eq]
    exact ⟨h.1, by simpa using ih⟩

/-- Posting a message preserves the store invariant: the new row is stamped
with the advanced clock, which dominates every stored timestamp. -/
theorem clockOk_post (st : DbState) (s m : String) (d now : Nat)
    (hc : clockOk st) : clockOk (postMessage st s m d now).2.2 := by
  obtain ⟨hs, hb⟩ := hc
  constructor
  · exact tsSorted_append_one st.messages _ hs
      (fun x hx => Nat.le_trans (hb x hx) (Nat.le_add_right _ _))
  · intro mrow hm
    simp only [postMessage, insertMessage, List.mem_append,
      List.mem_singleton] at hm
    cases hm with
    | inl h => exact Nat.le_trans (hb _ h) (Nat.le_add_right _ _)
    | inr h => subst h; exact Nat.le_refl _

/-- C3: from any store satisfying the timestamp invariant, posting M1, M2,
M3 in that order (with arbitrary clock jitter between the inserts) makes
fetch-history return the prior rows followed by M1, M2, M3 in exactly that
insertion order. -/
theorem c3_history_insertion_order (st : DbState) (s1 b1 s2 b2 s3 b3 : String)
    (d1 d2 d3 w1 w2 w3 : Nat) (hc : clockOk st) :
    selectMessagesOrdered
        (postMessage
          (postMessage (postMessage st s1 b1 d1 w1).2.2 s2 b2 d2 w2).2.2
          s3 b3 d3 w3).2.2 =
      st.messages ++
        [⟨st.nextMessageId, s1, b1, st.clock + d1⟩,
         ⟨st.nextMessageId + 1, s2, b2, st.clock + d1 + d2⟩,
         ⟨st.nextMessageId + 2, s3, b3, st.clock + d1 + d2 + d3⟩] := by
  have h1 := clockOk_post st s1 b1 d1 w1 hc
  have h2 := clockOk_post _ s2 b2 d2 w2 h1
  have h3 := clockOk_post _ s3 b3 d3 w3 h2
  unfold selectMessagesOrdered
  rw [sortByTimestamp_sorted_id _ h3.1]
  simp [postMessage, insertMessage]

/-- C3 witness on the empty store with distinct jitters. -/
theorem c3_history_insertion_order_witness :
    selectMessagesOrdered
        (postMessage
          (postMessage (postMessage ⟨[], [], 1, 1, 0⟩ "a" "m1" 0 10).2.2
            "b" "m2" 1 11).2.2
          "c" "m3" 0 12).2.2 =
      ([] : List MessageRow) ++
        [⟨1, "a", "m1", 0 + 0⟩, ⟨1 + 1, "b", "m2", 0 + 0 + 1⟩,
         ⟨1 + 2, "c", "m3", 0 + 0 + 1 + 0⟩] :=
  c3_history_insertion_order ⟨[], [], 1, 1, 0⟩ "a" "m1" "b" "m2" "c" "m3"
    0 1 0 10 11 12 ⟨rfl, by simp⟩

/-- A JS object write grows the key count by at most one. -/
theorem objSet_length_le (m : Registry) (k : String) (v : Nat) :
    (objSet m k v).length ≤ m.length + 1 := by
  unfold objSet
  split
  · simp
  · simp

/-- The disconnect loop never grows the registry. -/
theorem disconnectGo_fst_length_le (sid : Nat) : ∀ (pending : List (String × Nat))
    (cur : Registry) (acc : List Broadcast),
    ((disconnectGo sid pending cur acc).1).length ≤ cur.length
  | [], _, _ => Nat.le_refl _
  | (u, s) :: rest, cur, acc => by
    unfold disconnectGo
    split
    · exact Nat.le_trans
        (disconnectGo_fst_length_le sid rest (cur.filter (fun p => p.1 != u)) _)
        (List.length_filter_le _ _)
    · exact disconnectGo_fst_length_le sid rest cur acc

/-- One presence step keeps the registry within the capacity bound. -/
theorem stepReg_length_le (reg : Registry) (e : PresenceEvent)
    (h : reg.length ≤ 4) : (stepReg reg e).length ≤ 4 := by
  cases e with
  | online u s =>
    show ((userOnline reg u s).1).length ≤ 4
    unfold userOnline
    split
    · next hlt =>
      have h1 := objSet_length_le reg u s
      have hr : reg.length < 4 := by simpa [objKeys] using hlt
      show (objSet reg u s).length ≤ 4
      omega
    · exact h
  | close s =>
    exact Nat.le_trans (disconnectGo_fst_length_le s reg reg []) h

/-- The capacity bound is an invariant of every event trace. -/
theorem foldl_stepReg_length_le : ∀ (es : List PresenceEvent) (reg : Registry),
    reg.length ≤ 4 → (es.foldl stepReg reg).length ≤ 4
  | [], _, h => h
  | e :: es, reg, h =>
    foldl_stepReg_length_le es (stepReg reg e) (stepReg_length_le reg e h)

/-- C2: every registry reachable from the empty one holds at most 4
entries, and a `userOnline` announcement arriving at a registry that
already holds 4 entries leaves it unchanged and emits no broadcast. -/
theorem c2_presence_capacity (es : List PresenceEvent) (reg : Registry)
    (u : String) (s : Nat) (h4 : reg.length = 4) :
    (runReg es).length ≤ 4 ∧ userOnline reg u s = (reg, []) := by
  constructor
  · exact foldl_stepReg_length_le es [] (by simp)
  · unfold userOnline
    rw [if_neg]
    simp [objKeys, h4]

/-- C2 witness: a short trace, and a full 4-entry registry rejecting a 5th
announcement untouched. -/
theorem c2_presence_capacity_witness :
    (runReg [PresenceEvent.online "a" 1, PresenceEvent.close 1]).length ≤ 4 ∧
    userOnline [("a", 1), ("b", 2), ("c", 3), ("d", 4)] "e" 5 =
      ([("a", 1), ("b", 2), ("c", 3), ("d", 4)], []) :=
  c2_presence_capacity [PresenceEvent.online "a" 1, PresenceEvent.close 1]
    [("a", 1), ("b", 2), ("c", 3), ("d", 4)] "e" 5 (by decide)

/-- Deleting by a key that is not present leaves a registry unchanged. -/
theorem filter_ne_key (u : String) (l : Registry) (h : u ∉ objKeys l) :
    l.filter (fun p => p.1 != u) = l := by
  apply List.filter_eq_self.mpr
  intro a ha
  simp only [bne_iff_ne, ne_eq]
  intro hEq
  exact h (by
    have := List.mem_map_of_mem (fun p => (p : String × Nat).1) ha
    simpa [objKeys, hEq] using this)

/-- Closed form of the disconnect loop: with distinct keys, traversing
`pending` over the live registry `kept ++ pending` deletes exactly the
entries owned by the disconnecting socket and emits the broadcasts
`discBroadcasts` describes. -/
theorem disconnectGo_spec (sid : Nat) : ∀ (pending kept : Registry)
    (acc : List Broadcast), (objKeys (kept ++ pending)).Nodup →
    disconnectGo sid pending (kept ++ pending) acc =
      (kept ++ pending.filter (fun p => p.2 != sid),
        acc.reverse ++ discBroadcasts sid kept pending)
  | [], kept, acc, _ => by simp [disconnectGo, discBroadcasts]
  | (u, s) :: rest, kept, acc, hnd => by
    have hnd2 : (List.map (fun p => (p : String × Nat).1) kept ++
        u :: List.map (fun p => (p : String × Nat).1) rest).Nodup := by
      simpa [objKeys] using hnd
    have hparts := List.nodup_append.mp hnd2
    have hu1 : u ∉ objKeys kept := by
      intro hm
      exact hparts.2.2 (by simpa [objKeys] using hm) (List.mem_cons_self u _)
    have hu2 : u ∉ objKeys rest := by
      have := (List.nodup_cons.mp hparts.2.1).1
      simpa [objKeys] using this
    by_cases hs : s = sid
    · have hcur : (kept ++ (u, s) :: rest).filter (fun p => p.1 != u) =
          kept ++ rest := by
        rw [List.filter_append, filter_ne_key u kept hu1]
        simp [List.filter_cons, filter_ne_key u rest hu2]
      have hnd3 : (objKeys (kept ++ rest)).Nodup := by
        simp only [objKeys, List.map_append]
        apply List.nodup_append.mpr
        refine ⟨?_, ?_, ?_⟩
        · simpa [objKeys] using hparts.1
        · have := (List.nodup_cons.mp hparts.2.1).2
          simpa [objKeys] using this
        · intro a ha hb
          exact hparts.2.2 ha (List.mem_cons_of_mem u hb)
      show (if s = sid then _ else _) = _
      rw [if_pos hs, hcur,
        disconnectGo_spec sid rest kept
          (Broadcast.updateOnline (objKeys (kept ++ rest)) :: acc) hnd3]
      simp [List.filter_cons, hs, discBroadcasts, List.append_assoc]
    · have hassoc : kept ++ (u, s) :: rest = (kept ++ [(u, s)]) ++ rest := by
        simp
      show (if s = sid then _ else _) = _
      rw [if_neg hs, hassoc,
        disconnectGo_spec sid rest (kept ++ [(u, s)]) acc
          (by rw [← hassoc]; exact hnd)]
      simp [List.filter_cons, hs, discBroadcasts, List.append_assoc]

/-- The disconnect loop emits exactly one broadcast per matching entry. -/
theorem discBroadcasts_length (sid : Nat) : ∀ (pending kept : Registry),
    (discBroadcasts sid kept pending).length =
      (pending.filter (fun p => p.2 == sid)).length
  | [], _ => rfl
  | (u, s) :: rest, kept => by
    by_cases hs : s = sid
    · simp [discBroadcasts, hs, List.filter_cons,
        discBroadcasts_length sid rest kept]
    · simp [discBroadcasts, hs, List.filter_cons,
        discBroadcasts_length sid rest (kept ++ [(u, s)])]

/-- With no matching entry the disconnect loop emits nothing. -/
theorem discBroadcasts_nil (sid : Nat) : ∀ (pending kept : Registry),
    (∀ p ∈ pending, p.2 ≠ sid) → discBroadcasts sid kept pending = []
  | [], _, _ => rfl
  | (u, s) :: rest, kept, h => by
    have hs : s ≠ sid := h (u, s) (List.mem_cons_self _ _)
    simp [discBroadcasts, hs,
      discBroadcasts_nil sid rest (kept ++ [(u, s)])
        (fun p hp => h p (List.mem_cons_of_mem _ hp))]

/-- With exactly one matching entry the disconnect loop emits exactly the
updated online-users list. -/
theorem discBroadcasts_single (sid : Nat) : ∀ (pending kept : Registry)
    (q : String × Nat), pending.filter (fun p => p.2 == sid) = [q] →
    discBroadcasts sid kept pending =
      [Broadcast.updateOnline
        (objKeys (kept ++ pending.filter (fun p => p.2 != sid)))]
  | [], _, _, h => by simp at h
  | (u, s) :: rest, kept, q, h => by
    by_cases hs : s = sid
    · have h' : (u, s) = q ∧ rest.filter (fun p => p.2 == sid) = [] := by
        simpa [List.filter_cons, hs] using h
      have hnomatch : ∀ p ∈ rest, p.2 ≠ sid := by
        intro p hp hEq
        have hpm : p ∈ rest.filter (fun p => p.2 == sid) :=
          List.mem_filter.mpr ⟨hp, by simp [hEq]⟩
        simp [h'.2] at hpm
      have hfr : rest.filter (fun p => p.2 != sid) = rest :=
        List.filter_eq_self.mpr (fun p hp => by simpa using hnomatch p hp)
      simp [discBroadcasts, hs, List.filter_cons, hfr,
        discBroadcasts_nil sid rest kept hnomatch]
    · have h' : rest.filter (fun p => p.2 == sid) = [q] := by
        simpa [List.filter_cons, hs] using h
      have ih := discBroadcasts_single sid rest (kept ++ [(u, s)]) q h'
      simp only [discBroadcasts, if_neg hs, ih, List.filter_cons]
      simp [hs, List.append_assoc]

/-- C8: on disconnect, exactly the entries owned by the disconnecting socket
are removed; with no matching entry the registry is unchanged and nothing
is broadcast; with a matching entry at least one broadcast is emitted, and
with exactly one match the single broadcast is the updated key list. -/
theorem c8_disconnect_behavior (reg : Registry) (sid : Nat)
    (q : String × Nat) (hnd : (objKeys reg).Nodup) :
    (disconnect reg sid).1 = reg.filter (fun p => p.2 != sid) ∧
    ((∀ p ∈ reg, p.2 ≠ sid) → disconnect reg sid = (reg, [])) ∧
    ((∃ p ∈ reg, p.2 = sid) → (disconnect reg sid).2 ≠ []) ∧
    (reg.filter (fun p => p.2 == sid) = [q] →
      disconnect reg sid =
        (reg.filter (fun p => p.2 != sid),
          [Broadcast.updateOnline
            (objKeys (reg.filter (fun p => p.2 != sid)))])) := by
  have hspec := disconnectGo_spec sid reg [] [] (by simpa using hnd)
  have hdisc : disconnect reg sid =
      (reg.filter (fun p => p.2 != sid), discBroadcasts sid [] reg) := by
    unfold disconnect
    simpa using hspec
  refine ⟨by rw [hdisc], ?_, ?_, ?_⟩
  · intro hall
    rw [hdisc, List.filter_eq_self.mpr (fun p hp => by simpa using hall p hp),
      discBroadcasts_nil sid reg [] hall]
  · intro hex
    rw [hdisc]
    simp only [ne_eq]
    intro hcontra
    obtain ⟨p, hp, hps⟩ := hex
    have hlen := discBroadcasts_length sid reg []
    rw [hcontra] at hlen
    have hpm : p ∈ reg.filter (fun p => p.2 == sid) :=
      List.mem_filter.mpr ⟨hp, by simp [hps]⟩
    have hnil := List.eq_nil_of_length_eq_zero hlen.symm
    simp [hnil] at hpm
  · intro hone
    rw [hdisc, discBroadcasts_single sid reg [] q hone]
    simp

/-- C8 witness: a two-entry registry where socket 2 owns entry "b": the
entry is removed and one broadcast with the updated list ["a"] is emitted;
projected through the theorem at concrete inputs. -/
theorem c8_disconnect_behavior_witness :
    (disconnect [("a", 1), ("b", 2)] 2).1 = [("a", 1)] ∧
    disconnect [("a", 1), ("b", 2)] 2 =
      ([("a", 1)], [Broadcast.updateOnline ["a"]]) :=
  ⟨(c8_disconnect_behavior [("a", 1), ("b", 2)] 2 ("b", 2) (by decide)).1,
    (c8_disconnect_behavior [("a", 1), ("b", 2)] 2 ("b", 2)
      (by decide)).2.2.2 (by decide)⟩

/-- Announcing fresh usernames below capacity appends one registry entry per
username, all owned by the announcing socket. -/
theorem foldAnnounce_fresh (s : Nat) : ∀ (us : List String) (reg : Registry),
    (objKeys reg ++ us).Nodup → reg.length + us.length ≤ 4 →
    foldAnnounce us s reg = reg ++ us.map (fun u => (u, s))
  | [], reg, _, _ => by simp [foldAnnounce]
  | u :: rest, reg, hnd, hlen => by
    have hu : u ∉ objKeys reg := by
      have hdisj := List.disjoint_of_nodup_append hnd
      exact fun hm => hdisj hm (List.mem_cons_self u _)
    have hlt : (objKeys reg).length < 4 := by
      simp only [objKeys, List.length_map]
      simp only [List.length_cons] at hlen
      omega
    have hany : reg.any (fun p => p.1 == u) = false := by
      simp only [List.any_eq_false, beq_iff_eq]
      intro p hp hEq
      exact hu (by
        have := List.mem_map_of_mem (fun p => (p : String × Nat).1) hp
        simpa [objKeys, hEq] using this)
    have huo : (userOnline reg u s).1 = reg ++ [(u, s)] := by
      unfold userOnline
      rw [if_pos hlt]
      simp [objSet, hany]
    have hnd' : (objKeys (reg ++ [(u, s)]) ++ rest).Nodup := by
      simpa [objKeys, List.append_assoc] using hnd
    have hlen' : (reg ++ [(u, s)]).length + rest.length ≤ 4 := by
      simp only [List.length_append, List.length_singleton]
      simp only [List.length_cons] at hlen
      omega
    calc foldAnnounce (u :: rest) s reg
        = foldAnnounce rest s ((userOnline reg u s).1) := rfl
      _ = foldAnnounce rest s (reg ++ [(u, s)]) := by rw [huo]
      _ = (reg ++ [(u, s)]) ++ rest.map (fun v => (v, s)) :=
          foldAnnounce_fresh s rest (reg ++ [(u, s)]) hnd' hlen'
      _ = reg ++ (u :: rest).map (fun v => (v, s)) := by simp

/-- C10: presence capacity is counted per announced username: a single
socket announcing `us.length ≤ 4` distinct usernames from the empty
registry occupies one slot per username, and its disconnect removes every
one of those entries, emitting one broadcast per removed entry. -/
theorem c10_per_username_capacity (us : List String) (s : Nat)
    (hnd : us.Nodup) (hlen : us.length ≤ 4) :
    foldAnnounce us s [] = us.map (fun u => (u, s)) ∧
    (foldAnnounce us s []).length = us.length ∧
    (disconnect (foldAnnounce us s []) s).1 = [] ∧
    ((disconnect (foldAnnounce us s []) s).2).length = us.length := by
  have hfa : foldAnnounce us s [] = us.map (fun u => (u, s)) :=
    foldAnnounce_fresh s us [] (by simpa [objKeys] using hnd)
      (by simpa using hlen)
  have hobj : objKeys (us.map (fun u => (u, s))) = us := by
    simp [objKeys, List.map_map, Function.comp_def]
  have hkeys : (objKeys (us.map (fun u => (u, s)))).Nodup := by
    rw [hobj]
    exact hnd
  have hspec := disconnectGo_spec s (us.map (fun u => (u, s))) [] []
    (by simpa using hkeys)
  have hdisc : disconnect (us.map (fun u => (u, s))) s =
      ((us.map (fun u => (u, s))).filter (fun p => p.2 != s),
        discBroadcasts s [] (us.map (fun u => (u, s)))) := by
    unfold disconnect
    simpa using hspec
  have hfilterall :
      (us.map (fun u => (u, s))).filter (fun p => p.2 != s) = [] := by
    simp [List.filter_eq_nil_iff]
  have hfiltereq :
      (us.map (fun u => (u, s))).filter (fun p => p.2 == s) =
        us.map (fun u => (u, s)) :=
    List.filter_eq_self.mpr (by simp)
  refine ⟨hfa, by rw [hfa]; simp, ?_, ?_⟩
  · rw [hfa, hdisc, hfilterall]
  · rw [hfa, hdisc]
    show (discBroadcasts s [] (us.map (fun u => (u, s)))).length = us.length
    rw [discBroadcasts_length s (us.map (fun u => (u, s))) [], hfiltereq]
    simp

/-- C10 witness: one socket announces two distinct usernames; both occupy
slots and both are removed on disconnect, with one broadcast each. -/
theorem c10_per_username_capacity_witness :
    foldAnnounce ["a", "b"] 7 [] = [("a", 7), ("b", 7)] ∧
    (foldAnnounce ["a", "b"] 7 []).length = 2 ∧
    (disconnect (foldAnnounce ["a", "b"] 7 []) 7).1 = [] ∧
    ((disconnect (foldAnnounce ["a", "b"] 7 []) 7).2).length = 2 :=
  c10_per_username_capacity ["a", "b"] 7 (by decide) (by decide)
